import Mathlib

/-!
# create-github-pr: a verification development of `main.go`

The program is a single sequential Go `main`: it loads its configuration from
the environment, asks four questions on the terminal, validates the answers,
shows a summary, asks for confirmation and then opens one pull request per
selected repository.

The embedding is shallow.  Every effect of the program is made explicit:

* what the program does to the outside is recorded, in order, in a trace of
  `Event`s (writes to standard output, the `log.Fatal` diagnostic, the survey
  prompts shown, the line reads, the remote create calls);
* what the outside does to the program is a `Host`: the environment, the
  results of the library calls (`godotenv.Load`, `json.Unmarshal`,
  `survey.AskOne`, `PullRequests.Create`) and the part of the Unicode case table
  above ASCII, together with the pending results of `reader.ReadString`;
* `log.Fatal` ends the process with status 1, so a program is a function from
  the world to either a value or an exit (`Step`).

Go strings are modelled by Lean strings (sequences of Unicode scalar values).
The time stamp that `log` puts in front of a diagnostic is not modelled.
-/

namespace CreateGithubPr

/-! ## Data -/

/-- The request of `github.NewPullRequest` (go-github v32): every field is a
pointer in Go, `none` is the nil pointer. -/
structure NewPullRequest where
  Title : Option String
  Head : Option String
  Base : Option String
  Body : Option String
  Issue : Option Int
  MaintainerCanModify : Option Bool
  Draft : Option Bool
  deriving DecidableEq, Repr

/-- One call `client.PullRequests.Create(ctx, owner, repo, pull)`. -/
structure CreateCall where
  owner : String
  repo : String
  pull : NewPullRequest
  deriving DecidableEq, Repr

/-- What `reader.ReadString` hands back: the text read so far and the error
(`none` is nil). -/
structure ReadResult where
  text : String
  err : Option String
  deriving DecidableEq, Repr

/-- The observable actions of the program, one constructor per kind. -/
inductive Event where
  /-- One write to standard output (`fmt.Print`, `fmt.Println`, `fmt.Printf`). -/
  | stdout (text : String)
  /-- The diagnostic of `log.Fatal` / `log.Fatalf` on standard error. -/
  | fatal (msg : String)
  /-- A `survey.MultiSelect` prompt shown to the operator. -/
  | askMulti (message : String) (options : List String)
  /-- A `survey.Select` prompt shown to the operator. -/
  | askSelect (message : String) (options : List String)
  /-- One `reader.ReadString` on standard input. -/
  | read
  /-- One remote `PullRequests.Create` call. -/
  | create (call : CreateCall)
  deriving DecidableEq, Repr

/-- Everything the program takes from outside itself. -/
structure Host where
  /-- Go `unicode.To(unicode.LowerCase, r)` for runes above `unicode.MaxASCII`. -/
  unicodeLower : Char → Char
  /-- The error returned by `godotenv.Load()` (`none` is nil). -/
  dotenvLoad : Option String
  /-- The process environment as `os.Getenv` sees it after `godotenv.Load()`. -/
  environ : List (String × String)
  /-- Go `json.Unmarshal([]byte(s), &v)` for `v` a fresh `[]string`. -/
  unmarshal : String → Except String (List String)
  /-- The operator at a `survey.MultiSelect`: an error or the chosen options. -/
  multiSelect : String → List String → Except String (List String)
  /-- The operator at a `survey.Select`: an error or the chosen option. -/
  select : String → List String → Except String String
  /-- The remote service: the answer to the `n`-th create call of the run
  (counted from 0), an error or the created pull request's HTML URL. -/
  create : Nat → CreateCall → Except String String

/-- The mutable part of a run: the trace so far and the reads still to come on
standard input. -/
structure World where
  trace : List Event
  stdin : List ReadResult
  deriving DecidableEq, Repr

/-- Result of running a piece of the program: it returns a value, or the
process has exited (`os.Exit`) with a status. -/
inductive Step (α : Type) where
  | ok (a : α) (w : World)
  | exit (code : Nat) (w : World)

/-- A piece of the program. -/
def Prog (α : Type) : Type := World → Step α

instance : Monad Prog where
  pure a := fun w => Step.ok a w
  bind m f := fun w =>
    match m w with
    | Step.ok a w1 => f a w1
    | Step.exit c w1 => Step.exit c w1

/-- The world in which a step ended. -/
def Step.world {α : Type} : Step α → World
  | Step.ok _ w => w
  | Step.exit _ w => w

/-- The value a step returned, if it returned. -/
def Step.value? {α : Type} : Step α → Option α
  | Step.ok a _ => some a
  | Step.exit _ _ => none

/-- The exit status of the process when `main` ends with this step: 0 when
`main` returns, the argument of `os.Exit` otherwise. -/
def Step.exitCode {α : Type} : Step α → Nat
  | Step.ok _ _ => 0
  | Step.exit c _ => c

/-! ## Go runtime -/

/-- Go `unicode.IsSpace`: the Latin-1 switch and the `White_Space` table. -/
def IsSpace (c : Char) : Bool :=
  let n := c.toNat
  if n ≤ 0xFF then
    n == 0x09 || n == 0x0A || n == 0x0B || n == 0x0C || n == 0x0D || n == 0x20
      || n == 0x85 || n == 0xA0
  else
    n == 0x1680 || (0x2000 ≤ n && n ≤ 0x200A) || n == 0x2028 || n == 0x2029
      || n == 0x202F || n == 0x205F || n == 0x3000

/-- Go `strings.TrimSpace`: drop leading and trailing white space. -/
def TrimSpace (s : String) : String :=
  String.mk ((s.data.dropWhile IsSpace).reverse.dropWhile IsSpace).reverse

/-- Go `unicode.ToLower`: the ASCII fast path, the case table above it. -/
def toLowerRune (h : Host) (c : Char) : Char :=
  if c.toNat ≤ 0x7F then
    if 0x41 ≤ c.toNat ∧ c.toNat ≤ 0x5A then Char.ofNat (c.toNat + 0x20) else c
  else h.unicodeLower c

/-- Go `strings.ToLower`: every rune mapped by `unicode.ToLower`. -/
def ToLower (h : Host) (s : String) : String :=
  String.mk (s.data.map (toLowerRune h))

/-- Go `os.Getenv`: the value of the variable, the empty string when unset. -/
def Getenv (h : Host) (key : String) : String :=
  match h.environ.lookup key with
  | some v => v
  | none => ""

/-- Append one event to the trace. -/
def emit (e : Event) : Prog Unit :=
  fun w => Step.ok () { w with trace := w.trace ++ [e] }

/-- Go `fmt.Print(s)` / `fmt.Printf` with the formatted text `s`. -/
def Print (s : String) : Prog Unit := emit (Event.stdout s)

/-- Go `fmt.Println(s)`. -/
def Println (s : String) : Prog Unit := emit (Event.stdout (s ++ "\n"))

/-- Go `log.Fatal(msg)`: write the diagnostic, then `os.Exit(1)`. -/
def Fatal {α : Type} (msg : String) : Prog α :=
  fun w => Step.exit 1 { w with trace := w.trace ++ [Event.fatal msg] }

/-- The result of the next `ReadString` on a standard input with the given
pending reads: past the end of the script the read fails with `EOF` and no
text. -/
def nextRead (stdin : List ReadResult) : ReadResult :=
  match stdin with
  | [] => ⟨"", some "EOF"⟩
  | r :: _ => r

/-- Go `reader.ReadString(0x0A)`: the next read of standard input. -/
def ReadString : Prog ReadResult :=
  fun w => Step.ok (nextRead w.stdin) { trace := w.trace ++ [Event.read], stdin := w.stdin.tail }

/-- The create calls recorded in a trace, in order. -/
def createCalls : List Event → List CreateCall
  | [] => []
  | Event.create c :: es => c :: createCalls es
  | _ :: es => createCalls es

/-- Number of create calls already in a trace. -/
def createCount (t : List Event) : Nat := (createCalls t).length

/-- Go `client.PullRequests.Create(ctx, owner, repo, pull)`: the call is
recorded and the remote service answers. -/
def PullRequestsCreate (h : Host) (owner repo : String) (pull : NewPullRequest) :
    Prog (Except String String) :=
  fun w =>
    Step.ok (h.create (createCount w.trace) ⟨owner, repo, pull⟩)
      { w with trace := w.trace ++ [Event.create ⟨owner, repo, pull⟩] }

/-- Go `for i, x := range xs`, with `i` starting at `start`. -/
def rangeFrom {α : Type} (body : Nat → α → Prog Unit) : Nat → List α → Prog Unit
  | _, [] => pure ()
  | i, x :: xs => do
    body i x
    rangeFrom body (i + 1) xs

/-- Go `for i, x := range xs { body }`. -/
def range {α : Type} (xs : List α) (body : Nat → α → Prog Unit) : Prog Unit :=
  rangeFrom body 0 xs

/-! ## The program (`main.go`) -/

/-- Source `createPR` (lines 85-101). -/
def createPR (h : Host) (repositoryOwner repo baseBranch compareBranch prTitle : String) :
    Prog Unit := do
  let newPR : NewPullRequest :=
    { Title := some prTitle
      Head := some compareBranch
      Base := some baseBranch
      Body := none
      Issue := none
      MaintainerCanModify := some true
      Draft := none }
  let r ← PullRequestsCreate h repositoryOwner repo newPR
  match r with
  | Except.error err =>
    Print ("Failed to create PR for repository " ++ repo ++ ": " ++ err ++ "\n")
  | Except.ok url =>
    Print ("PR created: " ++ url ++ "\n")

/-- Source `surveyMultiSelect` (lines 103-113); the value returned is the new
content of `*response`. -/
def surveyMultiSelect (h : Host) (message : String) (options : List String)
    (_response : List String) : Prog (List String) := do
  emit (Event.askMulti message options)
  match h.multiSelect message options with
  | Except.error err => Fatal ("Error: occurred" ++ err)
  | Except.ok chosen => pure chosen

/-- Source `surveySelect` (lines 115-125); the value returned is the new
content of `*response`. -/
def surveySelect (h : Host) (message : String) (options : List String)
    (_response : String) : Prog String := do
  emit (Event.askSelect message options)
  match h.select message options with
  | Except.error err => Fatal ("Error: occurred" ++ err)
  | Except.ok chosen => pure chosen

/-- Source `validateInput` (lines 141-155); `none` is the nil error. -/
def validateInput (selectedRepositories : List String)
    (baseBranch compareBranch prTitle : String) : Prog (Option String) :=
  if selectedRepositories.length = 0 then
    pure (some "no repositories selected")
  else if baseBranch = "" then
    pure (some "base branch not selected")
  else if compareBranch = "" then
    pure (some "compare branch not selected")
  else do
    if prTitle = "" then
      Println "Warning: PR title is empty"
    pure none

/-- Source `printUserInput` (lines 157-168). -/
def printUserInput (selectedRepositories : List String)
    (baseBranch compareBranch prTitle : String) : Prog Unit := do
  Println "---------------------------------"
  Println "You have entered the following information:"
  Println "- Target Repositories:"
  range selectedRepositories (fun i repo =>
    Print ("  " ++ toString (i + 1) ++ ". " ++ repo ++ "\n"))
  Print ("- Base Branch:    " ++ baseBranch ++ "\n")
  Print ("- Compare Branch: " ++ compareBranch ++ "\n")
  Print ("- PR Title:       " ++ prTitle ++ "\n")
  Println "---------------------------------"

/-- Source `confirmUserInput` (lines 127-139). -/
def confirmUserInput (h : Host) (selectedRepositories : List String)
    (baseBranch compareBranch prTitle : String) : Prog Bool := do
  let err ← validateInput selectedRepositories baseBranch compareBranch prTitle
  match err with
  | some e => Fatal e
  | none =>
    printUserInput selectedRepositories baseBranch compareBranch prTitle
    Println "Is this information correct? (yes/no)"
    let confirm ← ReadString
    pure (decide (TrimSpace (ToLower h confirm.text) = "yes"))

/-- Source `main` (lines 18-83). -/
def main (h : Host) : Prog Unit := do
  match h.dotenvLoad with
  | some _ => Fatal "Error loading .env file"
  | none => pure ()
  let token := Getenv h "GITHUB_ACCESS_TOKEN"
  if token = "" then
    Fatal "GitHub token not set. Set token environment variable."
  let selectableRepositoriesJson := Getenv h "SELECTABLE_REPOSITORIES"
  let selectableBranchesJson := Getenv h "SELECTABLE_BRANCHES"
  let selectableRepositories ←
    match h.unmarshal selectableRepositoriesJson with
    | Except.error err => Fatal ("Error parsing selectableRepositories:" ++ err)
    | Except.ok v => pure v
  let selectableBranches ←
    match h.unmarshal selectableBranchesJson with
    | Except.error err => Fatal ("Error parsing selectableBranches:" ++ err)
    | Except.ok v => pure v
  let repositoryOwner := Getenv h "REPOSITORY_OWNER"
  if token = "" then
    Fatal "Repository owner not set. Set token environment variable."
  -- select repositories
  let selectedRepositories ← surveyMultiSelect h "Choose repositories:" selectableRepositories []
  -- select base branch
  let baseBranch ← surveySelect h "Choose a base branch:" selectableBranches ""
  -- select compare branch
  let compareBranch ← surveySelect h "Choose a compare branch:" selectableBranches ""
  -- input PR title
  Print "Enter the PR title: "
  let line ← ReadString
  let prTitle := TrimSpace line.text
  -- confirm user input
  let confirm ← confirmUserInput h selectedRepositories baseBranch compareBranch prTitle
  if !confirm then
    Println "Operation cancelled by the user."
  else
    -- create PRs
    range selectedRepositories (fun _ repo =>
      createPR h repositoryOwner repo baseBranch compareBranch prTitle)

/-! ## Runs and what is observed of them -/

/-- The world at process start: nothing done yet, the given reads pending. -/
def World.start (stdin : List ReadResult) : World := { trace := [], stdin := stdin }

/-- A whole run of the program. -/
def run (h : Host) (stdin : List ReadResult) : Step Unit := main h (World.start stdin)

/-- The texts written to standard output in a trace, in order. -/
def stdoutWrites : List Event → List String
  | [] => []
  | Event.stdout s :: es => s :: stdoutWrites es
  | _ :: es => stdoutWrites es

/-- The PR title of a run: the first read of standard input, trimmed
(source lines 70-71). -/
def enteredTitle (stdin : List ReadResult) : String := TrimSpace (nextRead stdin).text

/-- The text of the second read of standard input, the one `confirmUserInput`
makes (source line 137). -/
def confirmAnswer (stdin : List ReadResult) : String := (nextRead stdin.tail).text

/-- A line of text as one write to standard output. -/
def lineEvent (l : String) : Event := Event.stdout (l ++ "\n")

/-- The text `createPR` prints for an answer of the remote service
(source lines 96 and 100). -/
def resultLine (repo : String) : Except String String → String
  | Except.error err => "Failed to create PR for repository " ++ repo ++ ": " ++ err ++ "\n"
  | Except.ok url => "PR created: " ++ url ++ "\n"

/-- The call `createPR` issues for one repository (source lines 86-94). -/
def callFor (repositoryOwner baseBranch compareBranch prTitle repo : String) : CreateCall :=
  { owner := repositoryOwner
    repo := repo
    pull :=
      { Title := some prTitle
        Head := some compareBranch
        Base := some baseBranch
        Body := none
        Issue := none
        MaintainerCanModify := some true
        Draft := none } }

/-- The events of the create loop over `repos` when `k` create calls were
already made: per repository the call, then its result line. -/
def loopTrace (h : Host) (owner base cmp title : String) : Nat → List String → List Event
  | _, [] => []
  | k, repo :: rest =>
    Event.create (callFor owner base cmp title repo) ::
      Event.stdout (resultLine repo (h.create k (callFor owner base cmp title repo))) ::
        loopTrace h owner base cmp title (k + 1) rest

/-- The numbered repository lines of the summary, numbering from `i + 1`. -/
def numbered : Nat → List String → List String
  | _, [] => []
  | i, repo :: rest => ("  " ++ toString (i + 1) ++ ". " ++ repo) :: numbered (i + 1) rest

/-- The lines of the summary block, in the order `printUserInput` writes them. -/
def summaryLines (repos : List String) (base cmp title : String) : List String :=
  ["---------------------------------",
    "You have entered the following information:",
    "- Target Repositories:"] ++ numbered 0 repos ++
  ["- Base Branch:    " ++ base,
    "- Compare Branch: " ++ cmp,
    "- PR Title:       " ++ title,
    "---------------------------------"]

/-- The text written to standard output in a trace: the writes, one after the
other. -/
def emittedText (t : List Event) : String :=
  String.mk ((stdoutWrites t).flatMap String.data)

/-- Cut a text into its lines at the newline characters; `cur` holds, in
reverse, the characters of the line being read.  A last line without a
newline counts when it is not empty. -/
def linesAux : List Char → List Char → List String
  | cur, [] => if cur = [] then [] else [String.mk cur.reverse]
  | cur, c :: cs =>
    if c = '\n' then String.mk cur.reverse :: linesAux [] cs else linesAux (c :: cur) cs

/-- The lines of a text, as a terminal shows them. -/
def textLines (s : String) : List String := linesAux [] s.data

/-- The string holds no newline character. -/
def NoNewline (s : String) : Prop := '\n' ∉ s.data

instance (s : String) : Decidable (NoNewline s) := by
  unfold NoNewline
  infer_instance

/-- The error `validateInput` returns, `none` when the input passes; the rules
in source order. -/
def validationError (repos : List String) (base cmp : String) : Option String :=
  if repos.length = 0 then some "no repositories selected"
  else if base = "" then some "base branch not selected"
  else if cmp = "" then some "compare branch not selected"
  else none

/-- The events of `confirmUserInput` up to and including the read of the
answer, on an input that passes validation. -/
def confirmTrace (repos : List String) (base cmp title : String) : List Event :=
  (if title = "" then [lineEvent "Warning: PR title is empty"] else []) ++
    (summaryLines repos base cmp title).map lineEvent ++
      [lineEvent "Is this information correct? (yes/no)", Event.read]

/-- Equality of library results can be decided. -/
instance exceptDecEq {ε α : Type} [DecidableEq ε] [DecidableEq α] : DecidableEq (Except ε α)
  | Except.ok a, Except.ok b =>
    if hab : a = b then isTrue (by rw [hab]) else isFalse (fun hh => hab (Except.ok.inj hh))
  | Except.error a, Except.error b =>
    if hab : a = b then isTrue (by rw [hab]) else isFalse (fun hh => hab (Except.error.inj hh))
  | Except.ok _, Except.error _ => isFalse (fun hh => Except.noConfusion hh)
  | Except.error _, Except.ok _ => isFalse (fun hh => Except.noConfusion hh)

/-- The configuration phase of `main` (source lines 21-46) passes and yields
these two lists: `godotenv.Load` succeeds, the token is not empty and both
JSON lists parse. -/
def ConfigLoaded (h : Host) (selectableRepositories selectableBranches : List String) : Prop :=
  h.dotenvLoad = none ∧ Getenv h "GITHUB_ACCESS_TOKEN" ≠ "" ∧
    h.unmarshal (Getenv h "SELECTABLE_REPOSITORIES") = Except.ok selectableRepositories ∧
    h.unmarshal (Getenv h "SELECTABLE_BRANCHES") = Except.ok selectableBranches

/-- The three survey prompts (source lines 56-66) succeed with these answers. -/
def Answered (h : Host) (selectableRepositories selectableBranches : List String)
    (repos : List String) (base cmp : String) : Prop :=
  h.multiSelect "Choose repositories:" selectableRepositories = Except.ok repos ∧
    h.select "Choose a base branch:" selectableBranches = Except.ok base ∧
    h.select "Choose a compare branch:" selectableBranches = Except.ok cmp

instance (h : Host) (sr sb : List String) : Decidable (ConfigLoaded h sr sb) := by
  unfold ConfigLoaded
  infer_instance

instance (h : Host) (sr sb repos : List String) (base cmp : String) :
    Decidable (Answered h sr sb repos base cmp) := by
  unfold Answered
  infer_instance

/-- The events of the four prompts of a session (source lines 56-70). -/
def promptTrace (selectableRepositories selectableBranches : List String) : List Event :=
  [Event.askMulti "Choose repositories:" selectableRepositories,
    Event.askSelect "Choose a base branch:" selectableBranches,
    Event.askSelect "Choose a compare branch:" selectableBranches,
    Event.stdout "Enter the PR title: ",
    Event.read]

/-! ## Concrete hosts -/

/-- A `json.Unmarshal` that knows the three lists used in the examples. -/
def sampleUnmarshal (s : String) : Except String (List String) :=
  if s = "[\"svc-a\",\"svc-b\"]" then Except.ok ["svc-a", "svc-b"]
  else if s = "[\"svc-a\",\"svc-b\",\"svc-c\"]" then Except.ok ["svc-a", "svc-b", "svc-c"]
  else if s = "[\"main\",\"feature-x\"]" then Except.ok ["main", "feature-x"]
  else Except.error "invalid character"

/-- The operator of the examples at a branch prompt: `main` as base,
`feature-x` as compare. -/
def sampleSelect (message : String) (_options : List String) : Except String String :=
  if message = "Choose a base branch:" then Except.ok "main" else Except.ok "feature-x"

/-- The end-to-end scenario of the specification: owner `acme`, repositories
`svc-a` and `svc-b`, branches `main` and `feature-x`; the operator selects
every repository and every create call succeeds. -/
def acme : Host :=
  { unicodeLower := fun c => c
    dotenvLoad := none
    environ :=
      [("GITHUB_ACCESS_TOKEN", "t0ken"), ("REPOSITORY_OWNER", "acme"),
        ("SELECTABLE_REPOSITORIES", "[\"svc-a\",\"svc-b\"]"),
        ("SELECTABLE_BRANCHES", "[\"main\",\"feature-x\"]")]
    unmarshal := sampleUnmarshal
    multiSelect := fun _ options => Except.ok options
    select := sampleSelect
    create := fun _ call => Except.ok ("https://github.com/acme/" ++ call.repo ++ "/pull/1") }

/-- The operator selects no repository at all. -/
def acmeNoneSelected : Host :=
  { unicodeLower := fun c => c
    dotenvLoad := none
    environ :=
      [("GITHUB_ACCESS_TOKEN", "t0ken"), ("REPOSITORY_OWNER", "acme"),
        ("SELECTABLE_REPOSITORIES", "[\"svc-a\",\"svc-b\"]"),
        ("SELECTABLE_BRANCHES", "[\"main\",\"feature-x\"]")]
    unmarshal := sampleUnmarshal
    multiSelect := fun _ _ => Except.ok []
    select := sampleSelect
    create := fun _ call => Except.ok ("https://github.com/acme/" ++ call.repo ++ "/pull/1") }

/-- The environment of `acme` with `REPOSITORY_OWNER` not set. -/
def ownerUnset : Host :=
  { unicodeLower := fun c => c
    dotenvLoad := none
    environ :=
      [("GITHUB_ACCESS_TOKEN", "t0ken"),
        ("SELECTABLE_REPOSITORIES", "[\"svc-a\",\"svc-b\"]"),
        ("SELECTABLE_BRANCHES", "[\"main\",\"feature-x\"]")]
    unmarshal := sampleUnmarshal
    multiSelect := fun _ options => Except.ok options
    select := sampleSelect
    create := fun _ call => Except.ok ("https://github.com/" ++ call.owner ++ "/" ++ call.repo ++ "/pull/1") }

/-- The standard input of the end-to-end scenario: the title, then `yes`. -/
def typedYes : List ReadResult := [⟨"Release 1.2\n", none⟩, ⟨"yes\n", none⟩]

/-- The operator answers `no` at the confirmation. -/
def typedNo : List ReadResult := [⟨"Release 1.2\n", none⟩, ⟨"no\n", none⟩]

/-- The read of the title fails with `EOF` after the text `Rele`; the read of
the confirmation then succeeds with `yes`. -/
def titleReadFails : List ReadResult := [⟨"Rele", some "EOF"⟩, ⟨"yes\n", none⟩]

/-- The read of the title fails with `EOF` after the text `Rele` and standard
input has nothing more: every later read fails with `EOF` too. -/
def inputEnds : List ReadResult := [⟨"Rele", some "EOF"⟩]

/-! # Theorems -/

/-! ## Running the pieces -/

theorem pure_apply {α : Type} (a : α) (w : World) : (pure a : Prog α) w = Step.ok a w := rfl

theorem bind_apply {α β : Type} (m : Prog α) (f : α → Prog β) (w : World) :
    (m >>= f) w =
      match m w with
      | Step.ok a w1 => f a w1
      | Step.exit c w1 => Step.exit c w1 := rfl

theorem emit_apply (e : Event) (w : World) :
    emit e w = Step.ok () ⟨w.trace ++ [e], w.stdin⟩ := rfl

theorem Print_apply (s : String) (w : World) :
    Print s w = Step.ok () ⟨w.trace ++ [Event.stdout s], w.stdin⟩ := rfl

theorem Println_apply (s : String) (w : World) :
    Println s w = Step.ok () ⟨w.trace ++ [Event.stdout (s ++ "\n")], w.stdin⟩ := rfl

theorem Fatal_apply {α : Type} (msg : String) (w : World) :
    (Fatal msg : Prog α) w = Step.exit 1 ⟨w.trace ++ [Event.fatal msg], w.stdin⟩ := rfl

theorem ReadString_apply (w : World) :
    ReadString w = Step.ok (nextRead w.stdin) ⟨w.trace ++ [Event.read], w.stdin.tail⟩ := rfl

theorem createCalls_append (xs ys : List Event) :
    createCalls (xs ++ ys) = createCalls xs ++ createCalls ys := by
  induction xs with
  | nil => simp [createCalls]
  | cons e es ih => cases e <;> simp [createCalls, ih]

theorem stdoutWrites_append (xs ys : List Event) :
    stdoutWrites (xs ++ ys) = stdoutWrites xs ++ stdoutWrites ys := by
  induction xs with
  | nil => simp [stdoutWrites]
  | cons e es ih => cases e <;> simp [stdoutWrites, ih]

theorem createCalls_lineEvents (ls : List String) : createCalls (ls.map lineEvent) = [] := by
  induction ls with
  | nil => rfl
  | cons l ls ih => simpa [createCalls, lineEvent] using ih

theorem createPR_apply (h : Host) (owner repo base cmp title : String) (w : World) :
    createPR h owner repo base cmp title w =
      Step.ok () ⟨w.trace ++ [Event.create (callFor owner base cmp title repo),
        Event.stdout (resultLine repo
          (h.create (createCount w.trace) (callFor owner base cmp title repo)))], w.stdin⟩ := by
  unfold createPR
  simp only [bind_apply, PullRequestsCreate, callFor]
  cases hr : h.create (createCount w.trace)
      ⟨owner, repo, ⟨some title, some cmp, some base, none, none, some true, none⟩⟩ <;>
    simp [Print_apply, resultLine]

theorem rangeFrom_createPR (h : Host) (owner base cmp title : String) (repos : List String) :
    ∀ (i : Nat) (w : World),
      rangeFrom (fun _ repo => createPR h owner repo base cmp title) i repos w =
        Step.ok () ⟨w.trace ++ loopTrace h owner base cmp title (createCount w.trace) repos,
          w.stdin⟩ := by
  induction repos with
  | nil => intro i w; simp [rangeFrom, pure_apply, loopTrace]
  | cons r rs ih =>
    intro i w
    simp only [rangeFrom, bind_apply, createPR_apply, ih]
    simp [loopTrace, createCount, createCalls_append, createCalls]

theorem createCalls_loopTrace (h : Host) (owner base cmp title : String) (repos : List String) :
    ∀ k : Nat, createCalls (loopTrace h owner base cmp title k repos) =
      repos.map (callFor owner base cmp title) := by
  induction repos with
  | nil => intro k; simp [loopTrace, createCalls]
  | cons r rs ih => intro k; simp [loopTrace, createCalls, ih]

theorem numbered_length (repos : List String) :
    ∀ i : Nat, (numbered i repos).length = repos.length := by
  induction repos with
  | nil => intro i; rfl
  | cons r rs ih => intro i; simp [numbered, ih]

theorem numbered_getElem? (repos : List String) :
    ∀ (i j : Nat), (numbered i repos)[j]? =
      (repos[j]?).map (fun repo => "  " ++ toString (i + j + 1) ++ ". " ++ repo) := by
  induction repos with
  | nil => intro i j; simp [numbered]
  | cons r rs ih =>
    intro i j
    cases j with
    | zero => simp [numbered]
    | succ j =>
      simp only [numbered, List.getElem?_cons_succ, ih]
      have : i + 1 + j + 1 = i + (j + 1) + 1 := by omega
      rw [this]

theorem rangeFrom_numbered (repos : List String) :
    ∀ (i : Nat) (w : World),
      rangeFrom (fun i repo => Print ("  " ++ toString (i + 1) ++ ". " ++ repo ++ "\n")) i repos w =
        Step.ok () ⟨w.trace ++ (numbered i repos).map lineEvent, w.stdin⟩ := by
  induction repos with
  | nil => intro i w; simp [rangeFrom, pure_apply, numbered]
  | cons r rs ih =>
    intro i w
    simp only [rangeFrom, bind_apply, Print_apply, ih]
    simp [numbered, lineEvent, String.append_assoc]

theorem printUserInput_apply (repos : List String) (base cmp title : String) (w : World) :
    printUserInput repos base cmp title w =
      Step.ok () ⟨w.trace ++ (summaryLines repos base cmp title).map lineEvent, w.stdin⟩ := by
  unfold printUserInput range
  simp only [bind_apply, Println_apply, Print_apply, rangeFrom_numbered]
  simp [summaryLines, lineEvent, String.append_assoc]

theorem validateInput_ok (repos : List String) (base cmp title : String) (w : World)
    (hr : repos ≠ []) (hb : base ≠ "") (hc : cmp ≠ "") :
    validateInput repos base cmp title w =
      Step.ok none ⟨w.trace ++ (if title = "" then [lineEvent "Warning: PR title is empty"] else []),
        w.stdin⟩ := by
  have hl : repos.length ≠ 0 := by
    intro h0
    exact hr (List.length_eq_zero.mp h0)
  unfold validateInput
  by_cases ht : title = ""
  · simp [hl, hb, hc, ht, bind_apply, pure_apply, Println_apply, lineEvent]
  · simp [hl, hb, hc, ht, bind_apply, pure_apply]

theorem validateInput_error (repos : List String) (base cmp title : String) (w : World)
    (e : String) (he : validationError repos base cmp = some e) :
    validateInput repos base cmp title w = Step.ok (some e) w := by
  unfold validationError at he
  unfold validateInput
  by_cases h1 : repos.length = 0
  · simp only [h1, if_true, Option.some.injEq] at he
    simp [h1, pure_apply, he]
  · by_cases h2 : base = ""
    · simp only [h1, h2, if_true, if_false, Option.some.injEq] at he
      simp [h1, h2, pure_apply, he]
    · by_cases h3 : cmp = ""
      · simp only [h1, h2, h3, if_true, if_false, Option.some.injEq] at he
        simp [h1, h2, h3, pure_apply, he]
      · simp [h1, h2, h3] at he

theorem validationError_of_invalid (repos : List String) (base cmp : String)
    (hbad : repos = [] ∨ base = "" ∨ cmp = "") :
    ∃ e, validationError repos base cmp = some e ∧
      e ∈ ["no repositories selected", "base branch not selected",
        "compare branch not selected"] ∧
      (repos = [] → e = "no repositories selected") := by
  unfold validationError
  by_cases h1 : repos = []
  · exact ⟨"no repositories selected", by simp [h1], by simp, fun _ => rfl⟩
  · have hl : repos.length ≠ 0 := fun h0 => h1 (List.length_eq_zero.mp h0)
    by_cases h2 : base = ""
    · exact ⟨"base branch not selected", by simp [hl, h2], by simp, fun h => absurd h h1⟩
    · have h3 : cmp = "" := by
        rcases hbad with h | h | h
        · exact absurd h h1
        · exact absurd h h2
        · exact h
      exact ⟨"compare branch not selected", by simp [hl, h2, h3], by simp, fun h => absurd h h1⟩

theorem confirmUserInput_ok (h : Host) (repos : List String) (base cmp title : String)
    (w : World) (hr : repos ≠ []) (hb : base ≠ "") (hc : cmp ≠ "") :
    confirmUserInput h repos base cmp title w =
      Step.ok (decide (TrimSpace (ToLower h (nextRead w.stdin).text) = "yes"))
        ⟨w.trace ++ confirmTrace repos base cmp title, w.stdin.tail⟩ := by
  unfold confirmUserInput
  simp only [bind_apply, validateInput_ok repos base cmp title w hr hb hc,
    printUserInput_apply, Println_apply, ReadString_apply, pure_apply]
  simp [confirmTrace, lineEvent]

theorem confirmUserInput_error (h : Host) (repos : List String) (base cmp title : String)
    (w : World) (e : String) (he : validationError repos base cmp = some e) :
    confirmUserInput h repos base cmp title w =
      Step.exit 1 ⟨w.trace ++ [Event.fatal e], w.stdin⟩ := by
  unfold confirmUserInput
  simp only [bind_apply, validateInput_error repos base cmp title w e he, Fatal_apply]

theorem createCalls_promptTrace (sr sb : List String) : createCalls (promptTrace sr sb) = [] := rfl

theorem createCalls_confirmTrace (repos : List String) (base cmp title : String) :
    createCalls (confirmTrace repos base cmp title) = [] := by
  unfold confirmTrace
  by_cases ht : title = "" <;>
    simp [ht, createCalls_append, createCalls_lineEvents, createCalls, lineEvent]

/-! ## Whole runs -/

theorem main_prompted (h : Host) (sr sb repos : List String) (base cmp : String) (w : World)
    (hc : ConfigLoaded h sr sb) (ha : Answered h sr sb repos base cmp) :
    main h w =
      (confirmUserInput h repos base cmp (TrimSpace (nextRead w.stdin).text) >>= fun confirm =>
        if (!confirm) = true then Println "Operation cancelled by the user."
        else range repos (fun _ repo => createPR h (Getenv h "REPOSITORY_OWNER") repo base cmp
          (TrimSpace (nextRead w.stdin).text)))
        ⟨w.trace ++ promptTrace sr sb, w.stdin.tail⟩ := by
  obtain ⟨h1, h2, h3, h4⟩ := hc
  obtain ⟨a1, a2, a3⟩ := ha
  unfold main surveyMultiSelect surveySelect
  simp only [bind_apply, pure_apply, h1, h2, h3, h4, a1, a2, a3, if_false, emit_apply,
    Print_apply, ReadString_apply, promptTrace, List.append_assoc, List.singleton_append,
    List.cons_append, List.nil_append]

/-- A run that is confirmed: the prompts, the confirmation, then the create
loop; `main` returns. -/
theorem run_of_confirmed (h : Host) (stdin : List ReadResult) (sr sb repos : List String)
    (base cmp : String) (hcfg : ConfigLoaded h sr sb) (hans : Answered h sr sb repos base cmp)
    (hr : repos ≠ []) (hb : base ≠ "") (hc : cmp ≠ "")
    (hyes : TrimSpace (ToLower h (confirmAnswer stdin)) = "yes") :
    run h stdin =
      Step.ok () ⟨(promptTrace sr sb ++ confirmTrace repos base cmp (enteredTitle stdin)) ++
        loopTrace h (Getenv h "REPOSITORY_OWNER") base cmp (enteredTitle stdin) 0 repos,
        stdin.tail.tail⟩ := by
  unfold run
  rw [main_prompted h sr sb repos base cmp _ hcfg hans, bind_apply,
    confirmUserInput_ok h repos base cmp _ _ hr hb hc]
  have hy : TrimSpace (ToLower h (nextRead stdin.tail).text) = "yes" := hyes
  simp only [World.start, hy, decide_True, Bool.not_true, Bool.false_eq_true, if_false, range,
    rangeFrom_createPR, List.nil_append, createCount, createCalls_append, createCalls_promptTrace,
    createCalls_confirmTrace, List.length_nil, enteredTitle]

/-- A run that is declined: the prompts, the confirmation, then the
cancellation notice; `main` returns. -/
theorem run_of_declined (h : Host) (stdin : List ReadResult) (sr sb repos : List String)
    (base cmp : String) (hcfg : ConfigLoaded h sr sb) (hans : Answered h sr sb repos base cmp)
    (hr : repos ≠ []) (hb : base ≠ "") (hc : cmp ≠ "")
    (hno : TrimSpace (ToLower h (confirmAnswer stdin)) ≠ "yes") :
    run h stdin =
      Step.ok () ⟨(promptTrace sr sb ++ confirmTrace repos base cmp (enteredTitle stdin)) ++
        [Event.stdout "Operation cancelled by the user.\n"], stdin.tail.tail⟩ := by
  unfold run
  rw [main_prompted h sr sb repos base cmp _ hcfg hans, bind_apply,
    confirmUserInput_ok h repos base cmp _ _ hr hb hc]
  have hn : ¬ TrimSpace (ToLower h (nextRead stdin.tail).text) = "yes" := hno
  simp only [World.start, hn, decide_False, Bool.not_false, if_true, Println_apply,
    List.nil_append, enteredTitle]
  rfl

/-- A run whose input fails validation: the prompts, then the fatal
diagnostic; the process exits with status 1. -/
theorem run_of_invalid (h : Host) (stdin : List ReadResult) (sr sb repos : List String)
    (base cmp e : String) (hcfg : ConfigLoaded h sr sb) (hans : Answered h sr sb repos base cmp)
    (he : validationError repos base cmp = some e) :
    run h stdin = Step.exit 1 ⟨promptTrace sr sb ++ [Event.fatal e], stdin.tail⟩ := by
  unfold run
  rw [main_prompted h sr sb repos base cmp _ hcfg hans, bind_apply,
    confirmUserInput_error h repos base cmp _ _ e he]
  simp only [World.start, List.nil_append]

/-! ## Fatal ends before validation -/

/-- A failed `godotenv.Load` is fatal before anything else is done. -/
theorem run_of_dotenv_error (h : Host) (stdin : List ReadResult) (err : String)
    (hd : h.dotenvLoad = some err) :
    run h stdin = Step.exit 1 ⟨[Event.fatal "Error loading .env file"], stdin⟩ := by
  unfold run main
  simp only [bind_apply, hd, Fatal_apply, World.start, List.nil_append]

/-- An unset or empty `GITHUB_ACCESS_TOKEN` is fatal before any prompt. -/
theorem run_of_token_empty (h : Host) (stdin : List ReadResult)
    (hd : h.dotenvLoad = none) (ht : Getenv h "GITHUB_ACCESS_TOKEN" = "") :
    run h stdin =
      Step.exit 1 ⟨[Event.fatal "GitHub token not set. Set token environment variable."],
        stdin⟩ := by
  unfold run main
  simp only [bind_apply, pure_apply, hd, ht, if_true, Fatal_apply, World.start,
    List.nil_append]

/-- A failed repository multi-select is fatal at that prompt. -/
theorem run_of_multiSelect_error (h : Host) (stdin : List ReadResult) (sr sb : List String)
    (err : String) (hcfg : ConfigLoaded h sr sb)
    (ha : h.multiSelect "Choose repositories:" sr = Except.error err) :
    run h stdin =
      Step.exit 1 ⟨[Event.askMulti "Choose repositories:" sr,
        Event.fatal ("Error: occurred" ++ err)], stdin⟩ := by
  obtain ⟨h1, h2, h3, h4⟩ := hcfg
  unfold run main surveyMultiSelect
  simp only [bind_apply, pure_apply, h1, h2, h3, h4, ha, if_false, emit_apply, Fatal_apply,
    World.start, List.nil_append, List.singleton_append]

/-- A failed base-branch select is fatal at that prompt. -/
theorem run_of_base_error (h : Host) (stdin : List ReadResult) (sr sb repos : List String)
    (err : String) (hcfg : ConfigLoaded h sr sb)
    (ha : h.multiSelect "Choose repositories:" sr = Except.ok repos)
    (hbase : h.select "Choose a base branch:" sb = Except.error err) :
    run h stdin =
      Step.exit 1 ⟨[Event.askMulti "Choose repositories:" sr,
        Event.askSelect "Choose a base branch:" sb,
        Event.fatal ("Error: occurred" ++ err)], stdin⟩ := by
  obtain ⟨h1, h2, h3, h4⟩ := hcfg
  unfold run main surveyMultiSelect surveySelect
  simp only [bind_apply, pure_apply, h1, h2, h3, h4, ha, hbase, if_false, emit_apply,
    Fatal_apply, World.start, List.nil_append, List.singleton_append, List.cons_append]

/-- A failed compare-branch select is fatal at that prompt. -/
theorem run_of_compare_error (h : Host) (stdin : List ReadResult) (sr sb repos : List String)
    (base err : String) (hcfg : ConfigLoaded h sr sb)
    (ha : h.multiSelect "Choose repositories:" sr = Except.ok repos)
    (hbase : h.select "Choose a base branch:" sb = Except.ok base)
    (hcmp : h.select "Choose a compare branch:" sb = Except.error err) :
    run h stdin =
      Step.exit 1 ⟨[Event.askMulti "Choose repositories:" sr,
        Event.askSelect "Choose a base branch:" sb,
        Event.askSelect "Choose a compare branch:" sb,
        Event.fatal ("Error: occurred" ++ err)], stdin⟩ := by
  obtain ⟨h1, h2, h3, h4⟩ := hcfg
  unfold run main surveyMultiSelect surveySelect
  simp only [bind_apply, pure_apply, h1, h2, h3, h4, ha, hbase, hcmp, if_false, emit_apply,
    Fatal_apply, World.start, List.nil_append, List.singleton_append, List.cons_append]

/-- A repository list that does not parse is fatal before any prompt. -/
theorem run_of_repos_json_error (h : Host) (stdin : List ReadResult) (err : String)
    (hd : h.dotenvLoad = none) (ht : Getenv h "GITHUB_ACCESS_TOKEN" ≠ "")
    (hj : h.unmarshal (Getenv h "SELECTABLE_REPOSITORIES") = Except.error err) :
    run h stdin =
      Step.exit 1 ⟨[Event.fatal ("Error parsing selectableRepositories:" ++ err)], stdin⟩ := by
  unfold run main
  simp only [bind_apply, pure_apply, hd, ht, hj, if_false, Fatal_apply, World.start,
    List.nil_append]

/-- A branch list that does not parse is fatal before any prompt. -/
theorem run_of_branches_json_error (h : Host) (stdin : List ReadResult) (sr : List String)
    (err : String) (hd : h.dotenvLoad = none) (ht : Getenv h "GITHUB_ACCESS_TOKEN" ≠ "")
    (hj : h.unmarshal (Getenv h "SELECTABLE_REPOSITORIES") = Except.ok sr)
    (hk : h.unmarshal (Getenv h "SELECTABLE_BRANCHES") = Except.error err) :
    run h stdin =
      Step.exit 1 ⟨[Event.fatal ("Error parsing selectableBranches:" ++ err)], stdin⟩ := by
  unfold run main
  simp only [bind_apply, pure_apply, hd, ht, hj, hk, if_false, Fatal_apply, World.start,
    List.nil_append]

/-- The confirmation prompt is written only by a run whose configuration
loaded, whose three survey prompts were answered and whose selection passed
validation. -/
theorem reaches_confirmation (h : Host) (stdin : List ReadResult)
    (hreach : Event.stdout "Is this information correct? (yes/no)\n" ∈
      (run h stdin).world.trace) :
    ∃ (sr sb repos : List String) (base cmp : String),
      ConfigLoaded h sr sb ∧ Answered h sr sb repos base cmp ∧
        repos ≠ [] ∧ base ≠ "" ∧ cmp ≠ "" := by
  cases hd : h.dotenvLoad with
  | some err =>
    rw [run_of_dotenv_error h stdin err hd] at hreach
    simp [Step.world] at hreach
  | none =>
    by_cases ht : Getenv h "GITHUB_ACCESS_TOKEN" = ""
    · rw [run_of_token_empty h stdin hd ht] at hreach
      simp [Step.world] at hreach
    · cases hj : h.unmarshal (Getenv h "SELECTABLE_REPOSITORIES") with
      | error err =>
        rw [run_of_repos_json_error h stdin err hd ht hj] at hreach
        simp [Step.world] at hreach
      | ok sr =>
        cases hk : h.unmarshal (Getenv h "SELECTABLE_BRANCHES") with
        | error err =>
          rw [run_of_branches_json_error h stdin sr err hd ht hj hk] at hreach
          simp [Step.world] at hreach
        | ok sb =>
          have hcfg : ConfigLoaded h sr sb := ⟨hd, ht, hj, hk⟩
          cases ha : h.multiSelect "Choose repositories:" sr with
          | error err =>
            rw [run_of_multiSelect_error h stdin sr sb err hcfg ha] at hreach
            simp [Step.world] at hreach
          | ok repos =>
            cases hbase : h.select "Choose a base branch:" sb with
            | error err =>
              rw [run_of_base_error h stdin sr sb repos err hcfg ha hbase] at hreach
              simp [Step.world] at hreach
            | ok base =>
              cases hcmp : h.select "Choose a compare branch:" sb with
              | error err =>
                rw [run_of_compare_error h stdin sr sb repos base err hcfg ha hbase hcmp]
                  at hreach
                simp [Step.world] at hreach
              | ok cmp =>
                have hans : Answered h sr sb repos base cmp := ⟨ha, hbase, hcmp⟩
                by_cases hbad : repos = [] ∨ base = "" ∨ cmp = ""
                · obtain ⟨e, he, _, _⟩ := validationError_of_invalid repos base cmp hbad
                  rw [run_of_invalid h stdin sr sb repos base cmp e hcfg hans he] at hreach
                  simp [Step.world, promptTrace] at hreach
                · simp only [not_or] at hbad
                  exact ⟨sr, sb, repos, base, cmp, hcfg, hans, hbad.1, hbad.2.1, hbad.2.2⟩

/-! ## Lines of the emitted text -/

theorem ite_ne_newline (p : Prop) [Decidable p] (a b : Char) (ha : a ≠ '\n') (hb : b ≠ '\n') :
    (if p then a else b) ≠ '\n' := by
  split <;> assumption

theorem digitChar_ne_newline (n : Nat) : Nat.digitChar n ≠ '\n' := by
  unfold Nat.digitChar
  repeat' apply ite_ne_newline
  all_goals decide

theorem toDigitsCore_no_newline (fuel : Nat) :
    ∀ (n : Nat) (ds : List Char), '\n' ∉ ds → '\n' ∉ Nat.toDigitsCore 10 fuel n ds := by
  induction fuel with
  | zero => intro n ds hds; simpa [Nat.toDigitsCore] using hds
  | succ fuel ih =>
    intro n ds hds
    have hcons : '\n' ∉ Nat.digitChar (n % 10) :: ds := by
      intro hmem
      rcases List.mem_cons.mp hmem with hd | hd
      · exact digitChar_ne_newline (n % 10) hd.symm
      · exact hds hd
    unfold Nat.toDigitsCore
    by_cases h0 : n / 10 = 0
    · simpa [h0] using hcons
    · simpa [h0] using ih (n / 10) _ hcons

theorem toString_nat_no_newline (n : Nat) : NoNewline (toString n) := by
  have h := toDigitsCore_no_newline (n + 1) n [] (by simp)
  simpa [NoNewline, toString, Nat.repr, Nat.toDigits, List.asString] using h

theorem NoNewline_append (s t : String) (hs : NoNewline s) (ht : NoNewline t) :
    NoNewline (s ++ t) := by
  unfold NoNewline at *
  simp only [String.data_append, List.mem_append, not_or]
  exact ⟨hs, ht⟩

theorem linesAux_line (l : List Char) (hl : '\n' ∉ l) :
    ∀ (cur rest : List Char),
      linesAux cur (l ++ '\n' :: rest) = String.mk (cur.reverse ++ l) :: linesAux [] rest := by
  induction l with
  | nil => intro cur rest; simp [linesAux]
  | cons c cs ih =>
    intro cur rest
    have hc : c ≠ '\n' := fun h => hl (by simp [h])
    have hcs : '\n' ∉ cs := fun h => hl (List.mem_cons_of_mem c h)
    simp only [List.cons_append, linesAux, hc, if_false]
    change linesAux (c :: cur) (cs ++ '\n' :: rest) = _
    rw [ih hcs]
    simp

theorem textLines_of_lines (ls : List String) (hls : ∀ l ∈ ls, NoNewline l) :
    linesAux [] ((ls.map (fun l => l ++ "\n")).flatMap String.data) = ls := by
  induction ls with
  | nil => simp [linesAux]
  | cons l ls ih =>
    have hl : '\n' ∉ l.data := hls l (List.mem_cons_self l ls)
    have hrest : ∀ x ∈ ls, NoNewline x := fun x hx => hls x (List.mem_cons_of_mem l hx)
    have hdata : (l ++ "\n").data = l.data ++ '\n' :: [] := by
      rw [String.data_append]
    simp only [List.map_cons, List.flatMap_cons, hdata, List.append_assoc, List.cons_append,
      List.nil_append]
    rw [linesAux_line l.data hl, ih hrest]
    simp

theorem stdoutWrites_lines (ls : List String) :
    stdoutWrites (ls.map (fun l => Event.stdout (l ++ "\n"))) = ls.map (fun l => l ++ "\n") := by
  induction ls with
  | nil => rfl
  | cons l ls ih => simp [stdoutWrites, ih]

theorem numbered_no_newline (repos : List String) (hr : ∀ r ∈ repos, NoNewline r) :
    ∀ (i : Nat), ∀ l ∈ numbered i repos, NoNewline l := by
  induction repos with
  | nil => intro i l hl; simp [numbered] at hl
  | cons r rs ih =>
    intro i l hl
    simp only [numbered, List.mem_cons] at hl
    rcases hl with hl | hl
    · rw [hl]
      exact NoNewline_append _ _ (NoNewline_append _ _ (NoNewline_append _ _ (by decide)
        (toString_nat_no_newline (i + 1))) (by decide)) (hr r (List.mem_cons_self r rs))
    · exact ih (fun x hx => hr x (List.mem_cons_of_mem r hx)) (i + 1) l hl

theorem summaryLines_no_newline (repos : List String) (base cmp title : String)
    (hr : ∀ r ∈ repos, NoNewline r) (hb : NoNewline base) (hc : NoNewline cmp)
    (ht : NoNewline title) : ∀ l ∈ summaryLines repos base cmp title, NoNewline l := by
  intro l hl
  unfold summaryLines at hl
  simp only [List.mem_append, List.mem_cons, List.mem_singleton, List.not_mem_nil,
    or_false] at hl
  rcases hl with ((hl | hl | hl) | hl) | hl | hl | hl | hl
  · rw [hl]; decide
  · rw [hl]; decide
  · rw [hl]; decide
  · exact numbered_no_newline repos hr 0 l hl
  · rw [hl]; exact NoNewline_append _ _ (by decide) hb
  · rw [hl]; exact NoNewline_append _ _ (by decide) hc
  · rw [hl]; exact NoNewline_append _ _ (by decide) ht
  · rw [hl]; decide

/-! ## Input validation -/

/-- C1: on a non-empty repository list with non-empty base and compare
branches, `validateInput` returns the nil error for every title; it writes the
line `Warning: PR title is empty` when the title is empty and writes nothing
otherwise. -/
theorem validateInput_accepts (repos : List String) (base cmp title : String) (w : World)
    (hr : repos ≠ []) (hb : base ≠ "") (hc : cmp ≠ "") :
    (validateInput repos base cmp title w).value? = some none ∧
    (title = "" → validateInput repos base cmp title w =
      Step.ok none ⟨w.trace ++ [Event.stdout "Warning: PR title is empty\n"], w.stdin⟩) ∧
    (title ≠ "" → validateInput repos base cmp title w = Step.ok none w) := by
  rw [validateInput_ok repos base cmp title w hr hb hc]
  refine ⟨rfl, ?_, ?_⟩
  · intro ht
    simp [ht, lineEvent]
  · intro ht
    simp [ht]

/-- C1, at the empty title: one selected repository, both branches chosen. -/
theorem validateInput_accepts_witness :
    (["svc-a"] ≠ [] ∧ "main" ≠ "" ∧ "feature-x" ≠ "") ∧
    validateInput ["svc-a"] "main" "feature-x" "" (World.start []) =
      Step.ok none ⟨[Event.stdout "Warning: PR title is empty\n"], []⟩ :=
  ⟨⟨by decide, by decide, by decide⟩,
    (validateInput_accepts ["svc-a"] "main" "feature-x" "" (World.start [])
      (by decide) (by decide) (by decide)).2.1 rfl⟩

/-- C2: `validateInput` checks its rules in order and the first failure wins:
an empty repository list gives `no repositories selected` whatever the
branches; otherwise an empty base branch gives `base branch not selected`
whatever the compare branch; otherwise an empty compare branch gives
`compare branch not selected`.  In the three cases the world is returned
unchanged: nothing is written, the title is not looked at. -/
theorem validateInput_rejects (repos : List String) (base cmp title : String) (w : World) :
    (repos = [] →
      validateInput repos base cmp title w = Step.ok (some "no repositories selected") w) ∧
    (repos ≠ [] → base = "" →
      validateInput repos base cmp title w = Step.ok (some "base branch not selected") w) ∧
    (repos ≠ [] → base ≠ "" → cmp = "" →
      validateInput repos base cmp title w = Step.ok (some "compare branch not selected") w) := by
  refine ⟨?_, ?_, ?_⟩
  · intro h1
    apply validateInput_error
    simp [validationError, h1]
  · intro h1 h2
    have hl : repos.length ≠ 0 := fun h0 => h1 (List.length_eq_zero.mp h0)
    apply validateInput_error
    simp [validationError, hl, h2]
  · intro h1 h2 h3
    have hl : repos.length ≠ 0 := fun h0 => h1 (List.length_eq_zero.mp h0)
    apply validateInput_error
    simp [validationError, hl, h2, h3]

/-- C2, on three inputs with an empty title: everything missing, the base
branch missing together with the compare branch, the compare branch alone
missing. -/
theorem validateInput_rejects_witness :
    validateInput [] "" "" "" (World.start []) =
      Step.ok (some "no repositories selected") (World.start []) ∧
    validateInput ["svc-a"] "" "" "" (World.start []) =
      Step.ok (some "base branch not selected") (World.start []) ∧
    validateInput ["svc-a"] "main" "" "" (World.start []) =
      Step.ok (some "compare branch not selected") (World.start []) :=
  ⟨(validateInput_rejects [] "" "" "" (World.start [])).1 rfl,
    (validateInput_rejects ["svc-a"] "" "" "" (World.start [])).2.1 (by decide) rfl,
    (validateInput_rejects ["svc-a"] "main" "" "" (World.start [])).2.2
      (by decide) (by decide) rfl⟩

/-! ## Confirmation -/

/-- C3: on a selection that passes validation `confirmUserInput` returns, and
it returns true exactly when the line read, lower-cased and then trimmed, is
`yes`.  The lines `y`, `Yes please`, the empty line and `no` give false, the
line `  YES ` followed by a newline gives true, whatever error comes with the
read. -/
theorem confirmUserInput_true_iff (h : Host) (repos : List String) (base cmp title : String)
    (w : World) (hr : repos ≠ []) (hb : base ≠ "") (hc : cmp ≠ "") :
    ((confirmUserInput h repos base cmp title w).value? = some true ↔
      TrimSpace (ToLower h (nextRead w.stdin).text) = "yes") ∧
    ((confirmUserInput h repos base cmp title w).value? = some false ↔
      TrimSpace (ToLower h (nextRead w.stdin).text) ≠ "yes") ∧
    (∀ (line : String) (err : Option String) (rest : List ReadResult),
      line ∈ ["y", "Yes please", "", "no"] →
        (confirmUserInput h repos base cmp title ⟨w.trace, ⟨line, err⟩ :: rest⟩).value? =
          some false) ∧
    (∀ (err : Option String) (rest : List ReadResult),
      (confirmUserInput h repos base cmp title ⟨w.trace, ⟨"  YES \n", err⟩ :: rest⟩).value? =
        some true) := by
  refine ⟨?_, ?_, ?_, ?_⟩
  · rw [confirmUserInput_ok h repos base cmp title w hr hb hc]
    simp [Step.value?]
  · rw [confirmUserInput_ok h repos base cmp title w hr hb hc]
    simp [Step.value?]
  · intro line err rest hl
    rw [confirmUserInput_ok h repos base cmp title _ hr hb hc]
    simp only [Step.value?, nextRead, Option.some.injEq, decide_eq_false_iff_not]
    have e1 : TrimSpace (ToLower h "y") = "y" := rfl
    have e2 : TrimSpace (ToLower h "Yes please") = "yes please" := rfl
    have e3 : TrimSpace (ToLower h "") = "" := rfl
    have e4 : TrimSpace (ToLower h "no") = "no" := rfl
    simp only [List.mem_cons, List.mem_singleton, List.not_mem_nil, or_false] at hl
    rcases hl with hl | hl | hl | hl
    · rw [hl, e1]; decide
    · rw [hl, e2]; decide
    · rw [hl, e3]; decide
    · rw [hl, e4]; decide
  · intro err rest
    rw [confirmUserInput_ok h repos base cmp title _ hr hb hc]
    have e5 : TrimSpace (ToLower h "  YES \n") = "yes" := rfl
    simp [Step.value?, nextRead, e5]

/-- C3, for the operator typing `Yes` and a newline after the summary of one
repository: the answer is accepted. -/
theorem confirmUserInput_true_iff_witness :
    (["svc-a"] ≠ [] ∧ "main" ≠ "" ∧ "feature-x" ≠ "") ∧
    (confirmUserInput acme ["svc-a"] "main" "feature-x" "Release 1.2"
      ⟨[], [⟨"Yes\n", none⟩]⟩).value? = some true :=
  ⟨⟨by decide, by decide, by decide⟩,
    (confirmUserInput_true_iff acme ["svc-a"] "main" "feature-x" "Release 1.2"
      ⟨[], [⟨"Yes\n", none⟩]⟩ (by decide) (by decide) (by decide)).1.mpr rfl⟩

/-! ## The create loop -/

/-- C5: in a confirmed run the create calls are, in selection order, one per
selected repository `r`, each with owner the value of `REPOSITORY_OWNER`,
repo `r`, title the entered title, head the compare branch, base the base
branch, maintainer-can-modify true and no body (nor issue, nor draft flag). -/
theorem run_call_arguments (h : Host) (stdin : List ReadResult) (sr sb repos : List String)
    (base cmp : String) (hcfg : ConfigLoaded h sr sb) (hans : Answered h sr sb repos base cmp)
    (hr : repos ≠ []) (hb : base ≠ "") (hc : cmp ≠ "")
    (hyes : TrimSpace (ToLower h (confirmAnswer stdin)) = "yes") :
    createCalls (run h stdin).world.trace =
      repos.map (fun r =>
        { owner := Getenv h "REPOSITORY_OWNER"
          repo := r
          pull :=
            { Title := some (enteredTitle stdin)
              Head := some cmp
              Base := some base
              Body := none
              Issue := none
              MaintainerCanModify := some true
              Draft := none } }) := by
  rw [run_of_confirmed h stdin sr sb repos base cmp hcfg hans hr hb hc hyes]
  simp [Step.world, createCalls_append, createCalls_promptTrace, createCalls_confirmTrace,
    createCalls_loopTrace, callFor]

/-- C5, the end-to-end scenario: owner `acme`, repositories `svc-a` and
`svc-b`, base `main`, compare `feature-x`, title `Release 1.2`: exactly the two
calls of the specification. -/
theorem run_call_arguments_witness :
    (ConfigLoaded acme ["svc-a", "svc-b"] ["main", "feature-x"] ∧
      Answered acme ["svc-a", "svc-b"] ["main", "feature-x"] ["svc-a", "svc-b"] "main"
        "feature-x" ∧
      TrimSpace (ToLower acme (confirmAnswer typedYes)) = "yes") ∧
    createCalls (run acme typedYes).world.trace =
      [{ owner := "acme"
         repo := "svc-a"
         pull :=
           { Title := some "Release 1.2"
             Head := some "feature-x"
             Base := some "main"
             Body := none
             Issue := none
             MaintainerCanModify := some true
             Draft := none } },
       { owner := "acme"
         repo := "svc-b"
         pull :=
           { Title := some "Release 1.2"
             Head := some "feature-x"
             Base := some "main"
             Body := none
             Issue := none
             MaintainerCanModify := some true
             Draft := none } }] :=
  ⟨⟨⟨rfl, by decide, rfl, rfl⟩, ⟨rfl, rfl, rfl⟩, rfl⟩,
    run_call_arguments acme typedYes ["svc-a", "svc-b"] ["main", "feature-x"]
      ["svc-a", "svc-b"] "main" "feature-x" ⟨rfl, by decide, rfl, rfl⟩ ⟨rfl, rfl, rfl⟩
      (by decide) (by decide) (by decide) rfl⟩

/-! ## Ways a run ends without creating anything -/

/-- C6: in every run that writes the confirmation prompt and whose answer
(the read that follows the prompt), lower-cased and trimmed, is not `yes`, no
create call is made, the last thing done is to print `Operation cancelled by
the user.`, nothing fatal is logged and `main` returns (exit status 0). -/
theorem run_declined (h : Host) (stdin : List ReadResult)
    (hreach : Event.stdout "Is this information correct? (yes/no)\n" ∈
      (run h stdin).world.trace)
    (hno : TrimSpace (ToLower h (confirmAnswer stdin)) ≠ "yes") :
    createCalls (run h stdin).world.trace = [] ∧
    (run h stdin).world.trace.getLast? =
      some (Event.stdout "Operation cancelled by the user.\n") ∧
    (stdoutWrites (run h stdin).world.trace).getLast? =
      some "Operation cancelled by the user.\n" ∧
    (∀ msg : String, Event.fatal msg ∉ (run h stdin).world.trace) ∧
    (run h stdin).value? = some () ∧
    (run h stdin).exitCode = 0 := by
  obtain ⟨sr, sb, repos, base, cmp, hcfg, hans, hr, hb, hc⟩ := reaches_confirmation h stdin hreach
  rw [run_of_declined h stdin sr sb repos base cmp hcfg hans hr hb hc hno]
  refine ⟨?_, ?_, ?_, ?_, rfl, rfl⟩
  · simp [Step.world, createCalls_append, createCalls_promptTrace, createCalls_confirmTrace,
      createCalls]
  · simp only [Step.world, List.getLast?_concat]
  · simp only [Step.world, stdoutWrites_append]
    have hlast : stdoutWrites [Event.stdout "Operation cancelled by the user.\n"] =
        ["Operation cancelled by the user.\n"] := rfl
    rw [hlast, List.getLast?_concat]
  · intro msg
    simp only [Step.world]
    unfold promptTrace confirmTrace
    by_cases ht : enteredTitle stdin = "" <;> simp [ht, lineEvent]

/-- C6, the end-to-end scenario in which the operator answers `no`. -/
theorem run_declined_witness :
    (Event.stdout "Is this information correct? (yes/no)\n" ∈ (run acme typedNo).world.trace ∧
      TrimSpace (ToLower acme (confirmAnswer typedNo)) ≠ "yes") ∧
    createCalls (run acme typedNo).world.trace = [] ∧
    (run acme typedNo).world.trace.getLast? =
      some (Event.stdout "Operation cancelled by the user.\n") ∧
    (stdoutWrites (run acme typedNo).world.trace).getLast? =
      some "Operation cancelled by the user.\n" ∧
    (∀ msg : String, Event.fatal msg ∉ (run acme typedNo).world.trace) ∧
    (run acme typedNo).value? = some () ∧
    (run acme typedNo).exitCode = 0 := by
  have hrun := run_of_declined acme typedNo ["svc-a", "svc-b"] ["main", "feature-x"]
    ["svc-a", "svc-b"] "main" "feature-x" ⟨rfl, by decide, rfl, rfl⟩ ⟨rfl, rfl, rfl⟩
    (by decide) (by decide) (by decide) (by decide)
  have hreach : Event.stdout "Is this information correct? (yes/no)\n" ∈
      (run acme typedNo).world.trace := by
    rw [hrun]
    simp [Step.world, confirmTrace, lineEvent]
  exact ⟨⟨hreach, by decide⟩, run_declined acme typedNo hreach (by decide)⟩

/-- C7: in a run whose selection fails validation (no repository, or an empty
base branch, or an empty compare branch) the process exits with status 1
right after the four prompts: the trace is the prompts followed by the fatal
diagnostic, which is one of the three validation messages (`no repositories
selected` when no repository is selected); the only thing written to standard
output is the title prompt, so no summary; the one read made is the title
read, so the confirmation answer is still pending; and no create call is
made. -/
theorem run_invalid (h : Host) (stdin : List ReadResult) (sr sb repos : List String)
    (base cmp : String) (hcfg : ConfigLoaded h sr sb) (hans : Answered h sr sb repos base cmp)
    (hbad : repos = [] ∨ base = "" ∨ cmp = "") :
    ∃ e : String,
      e ∈ ["no repositories selected", "base branch not selected",
        "compare branch not selected"] ∧
      (repos = [] → e = "no repositories selected") ∧
      (run h stdin).exitCode = 1 ∧
      (run h stdin).world.trace = promptTrace sr sb ++ [Event.fatal e] ∧
      stdoutWrites (run h stdin).world.trace = ["Enter the PR title: "] ∧
      (run h stdin).world.stdin = stdin.tail ∧
      createCalls (run h stdin).world.trace = [] := by
  obtain ⟨e, he, hmem, hnone⟩ := validationError_of_invalid repos base cmp hbad
  refine ⟨e, hmem, hnone, ?_⟩
  rw [run_of_invalid h stdin sr sb repos base cmp e hcfg hans he]
  exact ⟨rfl, rfl, rfl, rfl, rfl⟩

/-- C7, the end-to-end scenario in which the operator selects no repository:
status 1, the diagnostic `no repositories selected`, the typed `yes` still
unread, no create call. -/
theorem run_invalid_witness :
    (ConfigLoaded acmeNoneSelected ["svc-a", "svc-b"] ["main", "feature-x"] ∧
      Answered acmeNoneSelected ["svc-a", "svc-b"] ["main", "feature-x"] [] "main"
        "feature-x") ∧
    ∃ e : String,
      e ∈ ["no repositories selected", "base branch not selected",
        "compare branch not selected"] ∧
      (([] : List String) = [] → e = "no repositories selected") ∧
      (run acmeNoneSelected typedYes).exitCode = 1 ∧
      (run acmeNoneSelected typedYes).world.trace =
        promptTrace ["svc-a", "svc-b"] ["main", "feature-x"] ++ [Event.fatal e] ∧
      stdoutWrites (run acmeNoneSelected typedYes).world.trace = ["Enter the PR title: "] ∧
      (run acmeNoneSelected typedYes).world.stdin = typedYes.tail ∧
      createCalls (run acmeNoneSelected typedYes).world.trace = [] :=
  ⟨⟨⟨rfl, by decide, rfl, rfl⟩, ⟨rfl, rfl, rfl⟩⟩,
    run_invalid acmeNoneSelected typedYes ["svc-a", "svc-b"] ["main", "feature-x"] [] "main"
      "feature-x" ⟨rfl, by decide, rfl, rfl⟩ ⟨rfl, rfl, rfl⟩ (Or.inl rfl)⟩

/-! ## Two guards that let a failure through -/

/-- C8: with `REPOSITORY_OWNER` unset (token and both JSON lists valid) the
run of the end-to-end scenario does not abort: the guard at source line 43
tests `token` again, so the four prompts are shown, the summary is confirmed,
both create calls are issued with the empty owner and `main` returns with
status 0. -/
theorem run_owner_unset_not_fatal :
    Getenv ownerUnset "REPOSITORY_OWNER" = "" ∧
    (run ownerUnset typedYes).exitCode = 0 ∧
    run ownerUnset typedYes = Step.ok ()
      ⟨[Event.askMulti "Choose repositories:" ["svc-a", "svc-b"],
        Event.askSelect "Choose a base branch:" ["main", "feature-x"],
        Event.askSelect "Choose a compare branch:" ["main", "feature-x"],
        Event.stdout "Enter the PR title: ",
        Event.read,
        Event.stdout "---------------------------------\n",
        Event.stdout "You have entered the following information:\n",
        Event.stdout "- Target Repositories:\n",
        Event.stdout "  1. svc-a\n",
        Event.stdout "  2. svc-b\n",
        Event.stdout "- Base Branch:    main\n",
        Event.stdout "- Compare Branch: feature-x\n",
        Event.stdout "- PR Title:       Release 1.2\n",
        Event.stdout "---------------------------------\n",
        Event.stdout "Is this information correct? (yes/no)\n",
        Event.read,
        Event.create (callFor "" "main" "feature-x" "Release 1.2" "svc-a"),
        Event.stdout "PR created: https://github.com//svc-a/pull/1\n",
        Event.create (callFor "" "main" "feature-x" "Release 1.2" "svc-b"),
        Event.stdout "PR created: https://github.com//svc-b/pull/1\n"], []⟩ := by
  have hrun := run_of_confirmed ownerUnset typedYes ["svc-a", "svc-b"] ["main", "feature-x"]
    ["svc-a", "svc-b"] "main" "feature-x" ⟨rfl, by decide, rfl, rfl⟩ ⟨rfl, rfl, rfl⟩
    (by decide) (by decide) (by decide) rfl
  rw [hrun]
  exact ⟨rfl, rfl, rfl⟩

/-- C9: when the read of the PR title fails with `EOF` after the text `Rele`,
the run is not fatal, the error of source line 70 is dropped and the run goes
on to validation and confirmation with the title `Rele`.  If the next read
yields `yes`, both pull requests are created with that title and `main`
returns with status 0; if every later read fails as well, the summary is
still shown and the run ends as a cancellation, again with status 0. -/
theorem run_title_read_error_not_fatal :
    (nextRead titleReadFails).err = some "EOF" ∧
    (run acme titleReadFails).exitCode = 0 ∧
    run acme titleReadFails = Step.ok ()
      ⟨[Event.askMulti "Choose repositories:" ["svc-a", "svc-b"],
        Event.askSelect "Choose a base branch:" ["main", "feature-x"],
        Event.askSelect "Choose a compare branch:" ["main", "feature-x"],
        Event.stdout "Enter the PR title: ",
        Event.read,
        Event.stdout "---------------------------------\n",
        Event.stdout "You have entered the following information:\n",
        Event.stdout "- Target Repositories:\n",
        Event.stdout "  1. svc-a\n",
        Event.stdout "  2. svc-b\n",
        Event.stdout "- Base Branch:    main\n",
        Event.stdout "- Compare Branch: feature-x\n",
        Event.stdout "- PR Title:       Rele\n",
        Event.stdout "---------------------------------\n",
        Event.stdout "Is this information correct? (yes/no)\n",
        Event.read,
        Event.create (callFor "acme" "main" "feature-x" "Rele" "svc-a"),
        Event.stdout "PR created: https://github.com/acme/svc-a/pull/1\n",
        Event.create (callFor "acme" "main" "feature-x" "Rele" "svc-b"),
        Event.stdout "PR created: https://github.com/acme/svc-b/pull/1\n"], []⟩ ∧
    (run acme inputEnds).exitCode = 0 ∧
    run acme inputEnds = Step.ok ()
      ⟨[Event.askMulti "Choose repositories:" ["svc-a", "svc-b"],
        Event.askSelect "Choose a base branch:" ["main", "feature-x"],
        Event.askSelect "Choose a compare branch:" ["main", "feature-x"],
        Event.stdout "Enter the PR title: ",
        Event.read,
        Event.stdout "---------------------------------\n",
        Event.stdout "You have entered the following information:\n",
        Event.stdout "- Target Repositories:\n",
        Event.stdout "  1. svc-a\n",
        Event.stdout "  2. svc-b\n",
        Event.stdout "- Base Branch:    main\n",
        Event.stdout "- Compare Branch: feature-x\n",
        Event.stdout "- PR Title:       Rele\n",
        Event.stdout "---------------------------------\n",
        Event.stdout "Is this information correct? (yes/no)\n",
        Event.read,
        Event.stdout "Operation cancelled by the user.\n"], []⟩ := by
  have hyes := run_of_confirmed acme titleReadFails ["svc-a", "svc-b"] ["main", "feature-x"]
    ["svc-a", "svc-b"] "main" "feature-x" ⟨rfl, by decide, rfl, rfl⟩ ⟨rfl, rfl, rfl⟩
    (by decide) (by decide) (by decide) rfl
  have hno := run_of_declined acme inputEnds ["svc-a", "svc-b"] ["main", "feature-x"]
    ["svc-a", "svc-b"] "main" "feature-x" ⟨rfl, by decide, rfl, rfl⟩ ⟨rfl, rfl, rfl⟩
    (by decide) (by decide) (by decide) (by decide)
  rw [hyes, hno]
  exact ⟨rfl, rfl, rfl, rfl, rfl⟩

/-! ## The summary block -/

/-- C10, as first stated, fails on a repository name that holds a newline:
for the one repository named `a`, newline, `b` the emitted text has nine lines,
not `1 + 7`, and the numbered entry is spread over the two lines `  1. a` and
`b`. -/
theorem printUserInput_newline_counterexample :
    textLines (emittedText
      (printUserInput ["a\nb"] "main" "feature-x" "t" (World.start [])).world.trace) =
      ["---------------------------------",
        "You have entered the following information:",
        "- Target Repositories:",
        "  1. a",
        "b",
        "- Base Branch:    main",
        "- Compare Branch: feature-x",
        "- PR Title:       t",
        "---------------------------------"] ∧
    (textLines (emittedText
      (printUserInput ["a\nb"] "main" "feature-x" "t" (World.start [])).world.trace)).length ≠
      ["a\nb"].length + 7 ∧
    "  1. a\nb" ∉ textLines (emittedText
      (printUserInput ["a\nb"] "main" "feature-x" "t" (World.start [])).world.trace) := by
  have hlines : textLines (emittedText
      (printUserInput ["a\nb"] "main" "feature-x" "t" (World.start [])).world.trace) =
      ["---------------------------------",
        "You have entered the following information:",
        "- Target Repositories:",
        "  1. a",
        "b",
        "- Base Branch:    main",
        "- Compare Branch: feature-x",
        "- PR Title:       t",
        "---------------------------------"] := by
    rw [printUserInput_apply]
    set_option maxRecDepth 8000 in rfl
  rw [hlines]
  refine ⟨rfl, ?_, ?_⟩
  · decide
  · decide

/-- C10, amended: `printUserInput` makes exactly `repos.length + 7` writes,
each a text followed by a newline: the separator, the heading, `- Target
Repositories:`, then for each index `i` the text of two blanks, `i + 1`, a dot,
a blank and the i-th repository, then the base branch, compare branch and PR
title texts with the given values, then the same separator again.  When no
repository name, neither branch and not the title holds a newline, these
texts are exactly the lines of the emitted text, so it has `repos.length + 7`
lines. -/
theorem printUserInput_lines (repos : List String) (base cmp title : String) (w : World) :
    ∃ lines : List String,
      printUserInput repos base cmp title w =
        Step.ok () ⟨w.trace ++ lines.map (fun l => Event.stdout (l ++ "\n")), w.stdin⟩ ∧
      lines.length = repos.length + 7 ∧
      lines[0]? = some "---------------------------------" ∧
      lines[1]? = some "You have entered the following information:" ∧
      lines[2]? = some "- Target Repositories:" ∧
      (∀ i : Fin repos.length,
        lines[3 + i.val]? = some ("  " ++ toString (i.val + 1) ++ ". " ++ repos.get i)) ∧
      lines[repos.length + 3]? = some ("- Base Branch:    " ++ base) ∧
      lines[repos.length + 4]? = some ("- Compare Branch: " ++ cmp) ∧
      lines[repos.length + 5]? = some ("- PR Title:       " ++ title) ∧
      lines[repos.length + 6]? = some "---------------------------------" ∧
      lines[repos.length + 6]? = lines[0]? ∧
      ((∀ r ∈ repos, NoNewline r) → NoNewline base → NoNewline cmp → NoNewline title →
        textLines (emittedText
          (printUserInput repos base cmp title ⟨[], w.stdin⟩).world.trace) = lines ∧
        (textLines (emittedText
          (printUserInput repos base cmp title ⟨[], w.stdin⟩).world.trace)).length =
            repos.length + 7) := by
  have htail : ∀ k : Nat, (summaryLines repos base cmp title)[repos.length + 3 + k]? =
      ["- Base Branch:    " ++ base, "- Compare Branch: " ++ cmp,
        "- PR Title:       " ++ title, "---------------------------------"][k]? := by
    intro k
    unfold summaryLines
    rw [List.getElem?_append_right (by simp [numbered_length])]
    congr 1
    simp [numbered_length]
  have hlen : (summaryLines repos base cmp title).length = repos.length + 7 := by
    simp [summaryLines, numbered_length]
  refine ⟨summaryLines repos base cmp title, printUserInput_apply repos base cmp title w,
    hlen, ?_, ?_, ?_, ?_, ?_, ?_, ?_, ?_, ?_, ?_⟩
  · simp [summaryLines]
  · simp [summaryLines]
  · simp [summaryLines]
  · intro i
    unfold summaryLines
    rw [List.getElem?_append_left (by simp [numbered_length]; omega)]
    rw [List.getElem?_append_right (by simp)]
    simp [numbered_getElem?, Nat.add_comm]
  · exact htail 0
  · exact htail 1
  · exact htail 2
  · exact htail 3
  · rw [htail 3]
    simp [summaryLines]
  · intro hr hb hc ht
    have htext : textLines (emittedText
        (printUserInput repos base cmp title ⟨[], w.stdin⟩).world.trace) =
          summaryLines repos base cmp title := by
      rw [printUserInput_apply]
      simp only [Step.world, List.nil_append, textLines, emittedText]
      have hw : stdoutWrites ((summaryLines repos base cmp title).map lineEvent) =
          (summaryLines repos base cmp title).map (fun l => l ++ "\n") :=
        stdoutWrites_lines _
      rw [hw]
      exact textLines_of_lines _ (summaryLines_no_newline repos base cmp title hr hb hc ht)
    rw [htext]
    exact ⟨rfl, hlen⟩

/-- C10, amended, on the end-to-end scenario: no value holds a newline and
the emitted text has the `2 + 7` lines written. -/
theorem printUserInput_lines_witness :
    ((∀ r ∈ ["svc-a", "svc-b"], NoNewline r) ∧ NoNewline "main" ∧ NoNewline "feature-x" ∧
      NoNewline "Release 1.2") ∧
    ∃ lines : List String,
      printUserInput ["svc-a", "svc-b"] "main" "feature-x" "Release 1.2" (World.start []) =
        Step.ok () ⟨lines.map (fun l => Event.stdout (l ++ "\n")), []⟩ ∧
      lines.length = 2 + 7 ∧
      textLines (emittedText
        (printUserInput ["svc-a", "svc-b"] "main" "feature-x" "Release 1.2"
          (World.start [])).world.trace) = lines ∧
      (textLines (emittedText
        (printUserInput ["svc-a", "svc-b"] "main" "feature-x" "Release 1.2"
          (World.start [])).world.trace)).length = 2 + 7 := by
  obtain ⟨lines, h1, h2, _, _, _, _, _, _, _, _, _, h12⟩ :=
    printUserInput_lines ["svc-a", "svc-b"] "main" "feature-x" "Release 1.2" (World.start [])
  have hyp := h12 (by decide) (by decide) (by decide) (by decide)
  exact ⟨⟨by decide, by decide, by decide, by decide⟩, lines, h1, h2, hyp.1, hyp.2⟩

/-- The summary block of the end-to-end scenario, write by write. -/
theorem printUserInput_scenario :
    printUserInput ["svc-a", "svc-b"] "main" "feature-x" "Release 1.2" (World.start []) =
      Step.ok ()
        ⟨[Event.stdout "---------------------------------\n",
          Event.stdout "You have entered the following information:\n",
          Event.stdout "- Target Repositories:\n",
          Event.stdout "  1. svc-a\n",
          Event.stdout "  2. svc-b\n",
          Event.stdout "- Base Branch:    main\n",
          Event.stdout "- Compare Branch: feature-x\n",
          Event.stdout "- PR Title:       Release 1.2\n",
          Event.stdout "---------------------------------\n"], []⟩ := by
  rw [printUserInput_apply]
  rfl

end CreateGithubPr
